import Mathlib

/-!
Shallow embedding of the basket / weighting / loadData client logic of the
meguru repository (src/static/app.js).  JavaScript numbers are modelled as
rationals, JS objects as association lists with unique keys, localStorage's
`meguru_basket` slot as an `Option (List BasketEntry)`.
-/

namespace Meguru

/-- A strategy entry as stored in the `meguru_basket` localStorage list.
The fields are exactly those the client writes: `addToBasket` pushes
`{symbol, window_size, threshold, color}` (app.js lines 1604-1609).
`color` is optional because older persisted entries may lack it;
`ensureBasketColors` backfills it. -/
structure BasketEntry where
  symbol : String
  window_size : Int
  threshold : Int
  color : Option String
deriving DecidableEq, Repr

/-- The field names present in the JSON object a `BasketEntry` serializes to
(the object literal built by `addToBasket`; `color` is present whenever
assigned). -/
def BasketEntry.jsonFieldNames (e : BasketEntry) : List String :=
  ["symbol", "window_size", "threshold"] ++
    (match e.color with
     | some _ => ["color"]
     | none => [])

/-- The (symbol, window_size, threshold) triple of an entry, the key used by
the duplicate check in `addToBasket`. -/
def tripleOf (e : BasketEntry) : String × Int × Int :=
  (e.symbol, e.window_size, e.threshold)

/-- The 16-color palette `BASKET_COLORS` (app.js lines 1497-1502). -/
def BASKET_COLORS : List String :=
  ["#e5994c", "#4ce5c5", "#e54cd8", "#ace54c",
   "#4c7fe5", "#e54c52", "#4ce572", "#9f4ce5",
   "#e5cc4c", "#4cd2e5", "#e54ca5", "#78e54c",
   "#4c4ce5", "#e5794c", "#4ce5a6", "#d24ce5"]

/-- JS truthiness of a string-valued field that may be absent: `undefined`
and the empty string are falsy, every other string is truthy. -/
def colorTruthy : Option String → Bool
  | some s => s != ""
  | none => false

/-- `getNextBasketColor` (app.js lines 1505-1512): first palette color whose
value is not already used by a (truthy) `color` in the basket; if all 16 are
used, wrap around by `basket.length % 16`. -/
def getNextBasketColor (basket : List BasketEntry) : String :=
  let usedColors : List String :=
    (basket.map (·.color)).filterMap
      (fun c =>
        match c with
        | some s => if s == "" then none else some s
        | none => none)
  match BASKET_COLORS.find? (fun c => !(usedColors.contains c)) with
  | some c => c
  | none => BASKET_COLORS.getD (basket.length % BASKET_COLORS.length) ""

/-- `ensureBasketColors` (app.js lines 1515-1524): iterate the basket in
order; every entry whose `color` is falsy gets `getNextBasketColor` of the
current (partially updated) basket, and the `changed` flag is raised.
Returns the updated list and the flag (the JS version mutates in place). -/
def ensureBasketColorsStep (acc : List BasketEntry × Bool) (i : ℕ) :
    List BasketEntry × Bool :=
  match acc.1[i]? with
  | some e =>
    if colorTruthy e.color then acc
    else (acc.1.set i { e with color := some (getNextBasketColor acc.1) }, true)
  | none => acc

def ensureBasketColors (basket : List BasketEntry) : List BasketEntry × Bool :=
  (List.range basket.length).foldl ensureBasketColorsStep (basket, false)

/-- `loadBasket` (app.js lines 1554-1562): read the stored basket (empty
when the key is absent), backfill colors, and write the basket back to
localStorage when the backfill changed something.  Returns the basket and
the resulting localStorage contents. -/
def loadBasket (store : Option (List BasketEntry)) :
    List BasketEntry × Option (List BasketEntry) :=
  let basket := store.getD []
  let r := ensureBasketColors basket
  (r.1, if r.2 then some r.1 else store)

/-- `saveBasket` (app.js lines 1565-1568): overwrite the stored basket
(the badge update is display-only). -/
def saveBasket (basket : List BasketEntry) : Option (List BasketEntry) :=
  some basket

/-- `getVisibleBasket` (app.js lines 1757-1760): the loaded basket filtered
to indices not in `state.hiddenStrategies`. -/
def getVisibleBasket (store : Option (List BasketEntry)) (hidden : Finset ℕ) :
    List BasketEntry :=
  let basket := (loadBasket store).1
  ((basket.enum).filter (fun p => decide (p.1 ∉ hidden))).map Prod.snd

/-- The object literal `addToBasket` pushes (app.js lines 1604-1609): the
current symbol, window size and threshold plus a fresh color. -/
def pushedEntry (sym : String) (ws th : Int) (basket : List BasketEntry) :
    BasketEntry :=
  { symbol := sym, window_size := ws, threshold := th,
    color := some (getNextBasketColor basket) }

/-- `addToBasket` (app.js lines 1584-1614), restricted to its effect on the
stored basket: bail out when no symbol is loaded (falsy `state.symbol`);
otherwise load the basket (which may persist backfilled colors), leave it
unchanged when the (symbol, window_size, threshold) triple is already
present, else append one new entry and save.  Status text and the
`state.basketWeights` invalidation are display-only. -/
def addToBasket (sym : String) (ws th : Int)
    (store : Option (List BasketEntry)) : Option (List BasketEntry) :=
  if sym == "" then store
  else
    let lb := loadBasket store
    if lb.1.any (fun s => s.symbol == sym && s.window_size == ws && s.threshold == th) then
      lb.2
    else
      saveBasket (lb.1 ++ [pushedEntry sym ws th lb.1])

/-- `removeFromBasket` (app.js lines 1698-1701), restricted to its effect on
the stored basket: load, `splice(index, 1)`, save. -/
def removeFromBasket (idx : ℕ) (store : Option (List BasketEntry)) :
    Option (List BasketEntry) :=
  saveBasket ((loadBasket store).1.eraseIdx idx)

/-- The hidden-index adjustment performed by the remove handler in
`renderBasketStrategies` (app.js lines 1810-1816): indices below the removed
one are kept, indices above it shift down by one, the removed index is
dropped. -/
def shiftHiddenOnRemove (hidden : Finset ℕ) (idx : ℕ) : Finset ℕ :=
  (hidden.filter (fun h => h < idx)) ∪
    ((hidden.filter (fun h => idx < h)).image (fun h => h - 1))

/-- A click on one of the two threshold steppers. -/
inductive ThresholdClick where
  | minus
  | plus
deriving DecidableEq, Repr

/-- The threshold stepper handlers (app.js lines 190-204): minus subtracts 5
only while above 50, plus adds 5 only while below 100. -/
def thresholdStep (t : Int) : ThresholdClick → Int
  | .minus => if 50 < t then t - 5 else t
  | .plus => if t < 100 then t + 5 else t

/-- `state.threshold` after a sequence of stepper clicks, starting from the
initial value 50 (app.js line 5). -/
def thresholdAfter (clicks : List ThresholdClick) : Int :=
  clicks.foldl thresholdStep 50

/-- One row of the `/api/basket/bar` response's `years` array.
`stock_returns` is a JS object mapping symbol to a per-year return, whose
value can be `null`; an association list with unique keys models it. -/
structure YearRow where
  stock_returns : List (String × Option ℚ)
deriving DecidableEq, Repr

/-- The `/api/basket/bar` response as consumed by `computeReturnWeights`:
an optional `error`, the `symbols` array (`data.symbols || []`) and the
`years` array. -/
structure BarResp where
  error : Option String
  symbols : List String
  years : List YearRow
deriving DecidableEq, Repr

/-- JS object lookup `row.stock_returns[sym]`: `none` for an absent key,
`some none` for a key explicitly set to `null`. -/
def lookupStockReturn (row : YearRow) (sym : String) : Option (Option ℚ) :=
  (row.stock_returns.find? (fun p => p.1 == sym)).map Prod.snd

/-- `d.stock_returns[sym] || 0` (app.js line 1885): absent and `null`
entries (and 0 itself) collapse to 0. -/
def retOrZero (row : YearRow) (sym : String) : ℚ :=
  match lookupStockReturn row sym with
  | some (some v) => v
  | _ => 0

/-- `MIN_WEIGHT` (app.js line 1880): the 5% floor used for
non-positive-return strategies. -/
def MIN_WEIGHT : ℚ := 5 / 100

/-- First-occurrence deduplication: the key order a JS object (or `Set`)
ends up with when fed a list with possible repeats. -/
def jsDedupStep (acc : List String) (s : String) : List String :=
  if acc.contains s then acc else acc ++ [s]

def jsDedup (l : List String) : List String :=
  l.foldl jsDedupStep []

/-- The per-symbol average `avgReturns[sym]` inside `computeReturnWeights`
(app.js lines 1883-1887): the sum of `stock_returns[sym] || 0` over ALL
years divided by the total number of years. -/
def crwAvgReturn (data : BarResp) (sym : String) : ℚ :=
  (data.years.map (fun d => retOrZero d sym)).sum / data.years.length

/-- `rawWeights[sym]` inside `computeReturnWeights` (app.js lines
1890-1893): the average itself when positive, else the `MIN_WEIGHT`
floor. -/
def crwRawWeight (data : BarResp) (sym : String) : ℚ :=
  if 0 < crwAvgReturn data sym then crwAvgReturn data sym else MIN_WEIGHT

/-- The sum of the raw-weight object's values, `totalWeight` (app.js line
1896).  The object is keyed by symbol, so repeated symbols in the response
collapse to one key (each reassignment recomputes the same value). -/
def crwTotalWeight (data : BarResp) : ℚ :=
  ((jsDedup data.symbols).map (crwRawWeight data)).sum

/-- `computeReturnWeights` (app.js lines 1867-1906), with the already
fetched `/api/basket/bar` response as an argument: `null` when the visible
basket is empty, the response carries an error, or it has no years;
otherwise the per-symbol map of floored raw weights normalized by
`totalWeight` (equal weights `1/symbols.length` if `totalWeight` is not
positive).  The returned association list is keyed by the deduplicated
symbols, as the JS weights object is. -/
def computeReturnWeights (basket : List BasketEntry) (data : BarResp) :
    Option (List (String × ℚ)) :=
  if basket.isEmpty then none
  else if data.error.isSome || data.years.isEmpty then none
  else
    some ((jsDedup data.symbols).map
      (fun sym =>
        (sym,
         if 0 < crwTotalWeight data then crwRawWeight data sym / crwTotalWeight data
         else 1 / (data.symbols.length : ℚ))))

/-- The `/api/marketcap` response: a flag for a truthy `error` field and an
object mapping display symbol to market cap. -/
structure CapResp where
  error : Bool
  caps : List (String × ℚ)
deriving DecidableEq, Repr

/-- `caps[sym] || 0` (app.js line 1929). -/
def capOf (caps : List (String × ℚ)) (sym : String) : ℚ :=
  ((caps.find? (fun p => p.1 == sym)).map Prod.snd).getD 0

/-- `symbol.replace(/\.NS$/i, '')` — strip a trailing `.NS`
case-insensitively (app.js lines 65-67 and 1924), written over the
character list so it evaluates in the kernel. -/
def stripNS (s : String) : String :=
  let cs := s.data
  if 3 ≤ cs.length && ((cs.drop (cs.length - 3)).map Char.toUpper == ['.', 'N', 'S']) then
    String.mk (cs.take (cs.length - 3))
  else s

/-- The raw weight `rawWeights[sym]` inside `computeMarketCapWeights`
(app.js lines 1927-1931): `sqrt(cap)` for a positive cap, else 0.
`Math.sqrt` is passed in as an explicit function `msqrt`; every property
proved below is independent of its values. -/
def mcwRawWeight (msqrt : ℚ → ℚ) (caps : List (String × ℚ)) (sym : String) : ℚ :=
  if 0 < capOf caps sym then msqrt (capOf caps sym) else 0

/-- The key list of the weights object built by `computeMarketCapWeights`
(app.js lines 1914-1928): the basket's symbol set (`Set` keeps
first-occurrence order) mapped through `stripNS`; the object collapses
duplicate display symbols. -/
def mcwKeys (basket : List BasketEntry) : List String :=
  jsDedup ((jsDedup (basket.map (·.symbol))).map stripNS)

/-- `totalWeight` inside `computeMarketCapWeights` (app.js line 1934): the
sum of the raw-weight object's values. -/
def mcwTotalWeight (msqrt : ℚ → ℚ) (basket : List BasketEntry)
    (caps : List (String × ℚ)) : ℚ :=
  ((mcwKeys basket).map (mcwRawWeight msqrt caps)).sum

/-- `computeMarketCapWeights` (app.js lines 1910-1945) with the fetched
market-cap response as an argument: `null` for an empty visible basket, an
error response, or a zero raw-weight total; otherwise each display symbol's
raw weight divided by the total. -/
def computeMarketCapWeights (msqrt : ℚ → ℚ) (basket : List BasketEntry)
    (caps : CapResp) : Option (List (String × ℚ)) :=
  if basket.isEmpty then none
  else if caps.error then none
  else if mcwTotalWeight msqrt basket caps.caps == 0 then none
  else
    some ((mcwKeys basket).map
      (fun sym => (sym, mcwRawWeight msqrt caps.caps sym / mcwTotalWeight msqrt basket caps.caps)))

/-- Lookup in a weight map, `weights[sym]`. -/
def mapLookup (m : List (String × ℚ)) (sym : String) : Option ℚ :=
  (m.find? (fun p => p.1 == sym)).map Prod.snd

/-- The non-null per-year returns `renderBasketStrategies` collects for a
strategy's average (app.js line 1786): map each year to
`stock_returns[sym]` when present and non-null, then drop the nulls. -/
def renderStrategyReturns (data : BarResp) (sym : String) : List ℚ :=
  data.years.filterMap
    (fun d =>
      match lookupStockReturn d sym with
      | some (some v) => some v
      | _ => none)

/-- The average return `renderBasketStrategies` displays (app.js lines
1787-1790): shown only when at least one non-null return exists, and
computed over the non-null returns only. -/
def renderStrategyAvg (data : BarResp) (sym : String) : Option ℚ :=
  let returns := renderStrategyReturns data sym
  if returns.isEmpty then none
  else some (returns.sum / returns.length)

/-- The slice of client state `loadData` touches.  The payload types of the
windows response, the overlap response and the cached bar data are
irrelevant to its control flow and kept generic. -/
structure LoadState (W O B : Type) where
  symbol : String
  windowBarData : Option B
  overlapData : Option O
deriving DecidableEq, Repr

/-- What `loadData` does after the state updates: bail out with the
`Enter a symbol` status, report an API error without rendering, or render
the windows table. -/
inductive LoadOutcome (W : Type) where
  | noSymbol
  | apiError (msg : String)
  | rendered (data : W)
deriving DecidableEq, Repr

/-- JS `String.prototype.trim`: strip whitespace from both ends, written
over the character list so it evaluates in the kernel. -/
def jsTrim (s : String) : String :=
  String.mk
    (((s.data.dropWhile Char.isWhitespace).reverse.dropWhile Char.isWhitespace).reverse)

/-- `symbolInput.value.trim().toUpperCase()` (app.js line 244). -/
def jsTrimUpper (s : String) : String :=
  String.mk ((jsTrim s).data.map Char.toUpper)

/-- `loadData` (app.js lines 243-303) as a state transition on the fields
it assigns, taking the already received responses as arguments:
`state.symbol` is set from the input first; an empty symbol aborts;
`state.windowBarData` is cleared before the fetch; an error in the windows
response aborts before `state.overlapData` is touched; otherwise
`state.overlapData` is reset and filled from a successful overlap response
and the table is rendered. -/
def loadData {W O B : Type} (st : LoadState W O B) (input : String)
    (wresp : Except String W) (oresp : Option (Except String O)) :
    LoadState W O B × LoadOutcome W :=
  let st1 := { st with symbol := jsTrimUpper input }
  if st1.symbol == "" then (st1, .noSymbol)
  else
    let st2 := { st1 with windowBarData := none }
    match wresp with
    | .error e => (st2, .apiError e)
    | .ok data =>
      let st3 := { st2 with
        overlapData :=
          match oresp with
          | some (.ok od) => some od
          | _ => none }
      (st3, .rendered data)

/-- The `strategies` parameter of the `/api/basket/overlap` request issued
by `loadData` (app.js lines 263-273): the FULL loaded basket, sent whenever
it is non-empty. -/
def loadDataOverlapStrategies (store : Option (List BasketEntry)) :
    Option (List BasketEntry) :=
  if ((loadBasket store).1).isEmpty then none else some (loadBasket store).1

/-- The `strategies` parameter of the `/api/basket/backtest` request issued
by `loadBasketBacktest` (app.js lines 1965-1982): the visible basket, sent
whenever it is non-empty. -/
def loadBasketBacktestStrategies (store : Option (List BasketEntry))
    (hidden : Finset ℕ) : Option (List BasketEntry) :=
  if (getVisibleBasket store hidden).isEmpty then none
  else some (getVisibleBasket store hidden)

/-! Concrete instances used by witnesses and counterexamples below. -/

/-- A colored basket entry. -/
def entryA : BasketEntry :=
  { symbol := "AAA.NS", window_size := 30, threshold := 50, color := some "#e5994c" }

/-- A second colored basket entry. -/
def entryB : BasketEntry :=
  { symbol := "BBB.NS", window_size := 7, threshold := 60, color := some "#4ce5c5" }

/-- A bar response with one year where symbol B lost money: raw weights are
1.95 for A and the 0.05 floor for B, so B's normalized weight is
0.05 / 2 = 0.025. -/
def barRespNeg : BarResp :=
  { error := none, symbols := ["A", "B"],
    years := [{ stock_returns := [("A", some (39 / 20)), ("B", some (-1))] }] }

/-- A bar response whose raw weights sum to at most 1 (0.5 for A plus the
0.05 floor for B). -/
def barRespSmall : BarResp :=
  { error := none, symbols := ["A", "B"],
    years := [{ stock_returns := [("A", some (1 / 2)), ("B", some (-1))] }] }

/-- A year row giving symbol A a 10% return. -/
def barRowTen : YearRow :=
  { stock_returns := [("A", some 10)] }

/-- A year row where symbol A's return is null. -/
def barRowNull : YearRow :=
  { stock_returns := [("A", none)] }

/-- A bar response with only the 10% year for symbol A. -/
def barRespTen : BarResp :=
  { error := none, symbols := ["A"], years := [barRowTen] }

/-- A bar response where symbol A has one 10% year and one null year. -/
def barRespNull : BarResp :=
  { error := none, symbols := ["A"], years := [barRowTen, barRowNull] }

/-- A market-cap response giving symbol AAA (display form of entryA's
symbol) a cap of 4. -/
def capsAAA : CapResp :=
  { error := false, caps := [("AAA", 4)] }

/-! Helper lemmas. -/

theorem ensureBasketColorsStep_of_colored (basket : List BasketEntry)
    (h : ∀ e ∈ basket, colorTruthy e.color = true) (i : ℕ) :
    ensureBasketColorsStep (basket, false) i = (basket, false) := by
  unfold ensureBasketColorsStep
  cases hb : basket[i]? with
  | none => rfl
  | some e => simp [h e (List.getElem?_mem hb)]

theorem ensureBasketColors_of_colored (basket : List BasketEntry)
    (h : ∀ e ∈ basket, colorTruthy e.color = true) :
    ensureBasketColors basket = (basket, false) := by
  unfold ensureBasketColors
  generalize List.range basket.length = l
  induction l with
  | nil => rfl
  | cons i t ih =>
    rw [List.foldl_cons, ensureBasketColorsStep_of_colored basket h i, ih]

theorem map_tripleOf_set (b : List BasketEntry) (i : ℕ) (e e' : BasketEntry)
    (hb : b[i]? = some e) (he : tripleOf e' = tripleOf e) :
    (b.set i e').map tripleOf = b.map tripleOf := by
  apply List.ext_getElem?
  intro n
  simp only [List.getElem?_map, List.getElem?_set]
  by_cases hin : i = n
  · subst hin
    have hlen : i < b.length := by
      by_contra hge
      rw [List.getElem?_eq_none (Nat.le_of_not_lt hge)] at hb
      exact Option.noConfusion hb
    simp [hlen, hb, he]
  · simp [hin]

theorem ensureBasketColorsStep_map_tripleOf (acc : List BasketEntry × Bool) (i : ℕ) :
    (ensureBasketColorsStep acc i).1.map tripleOf = acc.1.map tripleOf := by
  unfold ensureBasketColorsStep
  cases hb : acc.1[i]? with
  | none => rfl
  | some e =>
    by_cases hc : colorTruthy e.color = true
    · simp [hc]
    · simp only [hc, if_false]
      exact map_tripleOf_set acc.1 i e _ hb rfl

theorem ensureBasketColors_map_tripleOf (basket : List BasketEntry) :
    (ensureBasketColors basket).1.map tripleOf = basket.map tripleOf := by
  unfold ensureBasketColors
  generalize List.range basket.length = l
  suffices H : ∀ (l : List ℕ) (acc : List BasketEntry × Bool),
      (l.foldl ensureBasketColorsStep acc).1.map tripleOf = acc.1.map tripleOf by
    exact H l (basket, false)
  intro l
  induction l with
  | nil => intro acc; rfl
  | cons i t ih =>
    intro acc
    rw [List.foldl_cons, ih, ensureBasketColorsStep_map_tripleOf]

theorem loadBasket_fst_map_tripleOf (store : Option (List BasketEntry)) :
    (loadBasket store).1.map tripleOf = (store.getD []).map tripleOf := by
  unfold loadBasket
  exact ensureBasketColors_map_tripleOf _

theorem loadBasket_snd_map_tripleOf (store : Option (List BasketEntry)) :
    ((loadBasket store).2.getD []).map tripleOf = (store.getD []).map tripleOf := by
  unfold loadBasket
  by_cases hb : (ensureBasketColors (store.getD [])).2 = true
  · simp only [hb, if_true, Option.getD_some]
    exact ensureBasketColors_map_tripleOf _
  · simp only [Bool.not_eq_true] at hb
    simp [hb]

theorem thresholdStep_inv (t : Int) (c : ThresholdClick)
    (h : 50 ≤ t ∧ t ≤ 100 ∧ t % 5 = 0) :
    50 ≤ thresholdStep t c ∧ thresholdStep t c ≤ 100 ∧ thresholdStep t c % 5 = 0 := by
  cases c <;> simp only [thresholdStep] <;> split <;> omega

theorem thresholdFoldl_inv (clicks : List ThresholdClick) (t : Int)
    (h : 50 ≤ t ∧ t ≤ 100 ∧ t % 5 = 0) :
    50 ≤ clicks.foldl thresholdStep t ∧ clicks.foldl thresholdStep t ≤ 100 ∧
      (clicks.foldl thresholdStep t) % 5 = 0 := by
  induction clicks generalizing t with
  | nil => exact h
  | cons c cs ih =>
    rw [List.foldl_cons]
    exact ih _ (thresholdStep_inv t c h)

/-- C10: starting from the initial threshold 50, every sequence of clicks on
the threshold-minus and threshold-plus steppers keeps `state.threshold` a
multiple of 5 inside the closed interval [50, 100]. -/
theorem threshold_stepper_invariant (clicks : List ThresholdClick) :
    50 ≤ thresholdAfter clicks ∧ thresholdAfter clicks ≤ 100 ∧
      (5 : Int) ∣ thresholdAfter clicks := by
  have h := thresholdFoldl_inv clicks 50 (by omega)
  unfold thresholdAfter
  exact ⟨h.1, h.2.1, by omega⟩

/-- C7: basket persistence round-trips.  For every basket whose entries all
have a (truthy) color assigned, `ensureBasketColors` changes nothing, so
`loadBasket` after `saveBasket` returns exactly the saved array and leaves
the stored value untouched. -/
theorem basket_save_load_roundtrip (basket : List BasketEntry)
    (h : ∀ e ∈ basket, colorTruthy e.color = true) :
    ensureBasketColors basket = (basket, false) ∧
    loadBasket (saveBasket basket) = (basket, saveBasket basket) := by
  have he := ensureBasketColors_of_colored basket h
  refine ⟨he, ?_⟩
  unfold loadBasket saveBasket
  simp [he]

/-- Witness for C7 at a concrete two-entry basket. -/
theorem basket_save_load_roundtrip_witness :
    ensureBasketColors [entryA, entryB] = ([entryA, entryB], false) ∧
    loadBasket (saveBasket [entryA, entryB]) = ([entryA, entryB], saveBasket [entryA, entryB]) :=
  basket_save_load_roundtrip [entryA, entryB] (by decide)

/-- C9: the basket remove handler shifts the hidden-index set so that it
designates the same surviving strategies: `removeFromBasket` splices index
`i` out of the stored basket, entries below `i` keep their position and
hidden status, entries above `i` move down one position and carry their
hidden status along. -/
theorem remove_preserves_hidden (basket : List BasketEntry) (hidden : Finset ℕ)
    (i j : ℕ) (hc : ∀ e ∈ basket, colorTruthy e.color = true) :
    removeFromBasket i (some basket) = some (basket.eraseIdx i) ∧
    (j < i → (basket.eraseIdx i)[j]? = basket[j]? ∧
      (j ∈ shiftHiddenOnRemove hidden i ↔ j ∈ hidden)) ∧
    (i ≤ j → (basket.eraseIdx i)[j]? = basket[j + 1]? ∧
      (j ∈ shiftHiddenOnRemove hidden i ↔ j + 1 ∈ hidden)) := by
  refine ⟨?_, ?_, ?_⟩
  · unfold removeFromBasket saveBasket loadBasket
    simp [ensureBasketColors_of_colored basket hc]
  · intro hj
    constructor
    · rw [List.getElem?_eraseIdx]
      simp [hj]
    · simp only [shiftHiddenOnRemove, Finset.mem_union, Finset.mem_filter,
        Finset.mem_image]
      constructor
      · rintro (⟨hm, _⟩ | ⟨a, ⟨ham, hai⟩, hae⟩)
        · exact hm
        · omega
      · intro hm
        exact Or.inl ⟨hm, hj⟩
  · intro hj
    constructor
    · rw [List.getElem?_eraseIdx]
      simp [Nat.not_lt.mpr hj]
    · simp only [shiftHiddenOnRemove, Finset.mem_union, Finset.mem_filter,
        Finset.mem_image]
      constructor
      · rintro (⟨_, hlt⟩ | ⟨a, ⟨ham, hai⟩, hae⟩)
        · omega
        · have : a = j + 1 := by omega
          exact this ▸ ham
      · intro hm
        exact Or.inr ⟨j + 1, ⟨hm, by omega⟩, by omega⟩

/-- Witness for C9: removing index 1 from a three-entry basket while
strategies 0 and 2 are hidden. -/
theorem remove_preserves_hidden_witness :
    removeFromBasket 1 (some [entryA, entryB, entryA]) =
      some ([entryA, entryB, entryA].eraseIdx 1) ∧
    (2 ∈ shiftHiddenOnRemove {0, 2} 1 ↔ 3 ∈ ({0, 2} : Finset ℕ)) ∧
    (0 ∈ shiftHiddenOnRemove {0, 2} 1 ↔ 0 ∈ ({0, 2} : Finset ℕ)) := by
  refine ⟨(remove_preserves_hidden [entryA, entryB, entryA] {0, 2} 1 0 (by decide)).1,
    ((remove_preserves_hidden [entryA, entryB, entryA] {0, 2} 1 2 (by decide)).2.2
      (by decide)).2,
    ((remove_preserves_hidden [entryA, entryB, entryA] {0, 2} 1 0 (by decide)).2.1
      (by decide)).2⟩

theorem any_triple_iff_mem (basket : List BasketEntry) (sym : String) (ws th : Int) :
    basket.any (fun s => s.symbol == sym && s.window_size == ws && s.threshold == th) = true ↔
      (sym, ws, th) ∈ basket.map tripleOf := by
  simp only [List.any_eq_true, List.mem_map, tripleOf, Bool.and_eq_true, beq_iff_eq,
    Prod.mk.injEq]
  constructor
  · rintro ⟨s, hs, ⟨h1, h2⟩, h3⟩
    exact ⟨s, hs, h1, h2, h3⟩
  · rintro ⟨s, hs, h1, h2, h3⟩
    exact ⟨s, hs, ⟨h1, h2⟩, h3⟩

/-- C8 (amended): `addToBasket` preserves uniqueness of the
(symbol, window_size, threshold) triples in the stored basket, and — when a
non-empty symbol is loaded — leaves the stored triples unchanged when the
current triple is already present and appends exactly one entry with the
current triple otherwise.  (With an empty symbol `addToBasket` returns
before touching the basket, and duplicate-branch "unchanged" holds for the
triples: `loadBasket` may still backfill missing colors.) -/
theorem addToBasket_triples (sym : String) (ws th : Int)
    (store : Option (List BasketEntry)) :
    ((((store.getD []).map tripleOf).Nodup →
        (((addToBasket sym ws th store).getD []).map tripleOf).Nodup))
    ∧ (sym ≠ "" → (sym, ws, th) ∈ (store.getD []).map tripleOf →
        ((addToBasket sym ws th store).getD []).map tripleOf =
          (store.getD []).map tripleOf)
    ∧ (sym ≠ "" → (sym, ws, th) ∉ (store.getD []).map tripleOf →
        ((addToBasket sym ws th store).getD []).map tripleOf =
          (store.getD []).map tripleOf ++ [(sym, ws, th)]) := by
  by_cases hs : sym = ""
  · subst hs
    unfold addToBasket
    simp
  · have hbeq : (sym == "") = false := by simp [hs]
    have hlb := loadBasket_fst_map_tripleOf store
    have hlb2 := loadBasket_snd_map_tripleOf store
    by_cases hdup :
        ((loadBasket store).1.any
          (fun s => s.symbol == sym && s.window_size == ws && s.threshold == th)) = true
    · have hmem : (sym, ws, th) ∈ (store.getD []).map tripleOf := by
        rw [← hlb]
        exact (any_triple_iff_mem _ sym ws th).mp hdup
      have hres : (addToBasket sym ws th store).getD [] = (loadBasket store).2.getD [] := by
        unfold addToBasket
        simp [hbeq, hdup]
      refine ⟨?_, fun _ _ => ?_, fun _ hnm => absurd hmem hnm⟩
      · intro hnd
        rw [hres, hlb2]
        exact hnd
      · rw [hres, hlb2]
    · have hnmem : (sym, ws, th) ∉ (store.getD []).map tripleOf := by
        rw [← hlb]
        intro hm
        exact hdup ((any_triple_iff_mem _ sym ws th).mpr hm)
      have hres : (addToBasket sym ws th store).getD []
          = (loadBasket store).1 ++ [pushedEntry sym ws th (loadBasket store).1] := by
        unfold addToBasket saveBasket
        simp [hbeq, hdup]
      have hmap : ((addToBasket sym ws th store).getD []).map tripleOf
          = (store.getD []).map tripleOf ++ [(sym, ws, th)] := by
        rw [hres, List.map_append, hlb]
        rfl
      refine ⟨?_, fun _ hm => absurd hm hnmem, fun _ _ => hmap⟩
      intro hnd
      rw [hmap]
      simp [List.nodup_append, hnd, hnmem]

/-- Witness for C8: adding a fresh strategy to a one-entry basket appends
exactly its triple. -/
theorem addToBasket_triples_witness :
    ((addToBasket "CCC.NS" 30 50 (some [entryA])).getD []).map tripleOf =
      ((some [entryA] : Option (List BasketEntry)).getD []).map tripleOf ++
        [("CCC.NS", 30, 50)] :=
  (addToBasket_triples "CCC.NS" 30 50 (some [entryA])).2.2 (by decide) (by decide)

/-- Counterexample for C8 as stated: with no symbol loaded
(`state.symbol` empty) the triple ("", 30, 50) is absent from the stored
basket, yet `addToBasket` appends nothing — the "otherwise exactly one new
entry is appended" clause fails. -/
theorem addToBasket_triples_cex :
    ("", 30, 50) ∉ (((some [] : Option (List BasketEntry)).getD []).map tripleOf) ∧
    addToBasket "" 30 50 (some []) = some [] := by
  constructor
  · simp
  · decide

/-- C5 (amended): every entry `addToBasket` stores carries exactly the
fields symbol, window_size, threshold and color, matching the current
state; no `weight` and no `visible` field is stored (weights live in
`state.basketWeights`, visibility in `state.hiddenStrategies`). -/
theorem addToBasket_entry_fields (sym : String) (ws th : Int)
    (store : Option (List BasketEntry)) (hs : sym ≠ "")
    (hdup : ((loadBasket store).1.any
      (fun s => s.symbol == sym && s.window_size == ws && s.threshold == th)) = false) :
    addToBasket sym ws th store
      = some ((loadBasket store).1 ++ [pushedEntry sym ws th (loadBasket store).1])
    ∧ (pushedEntry sym ws th (loadBasket store).1).jsonFieldNames
        = ["symbol", "window_size", "threshold", "color"]
    ∧ "weight" ∉ (pushedEntry sym ws th (loadBasket store).1).jsonFieldNames
    ∧ "visible" ∉ (pushedEntry sym ws th (loadBasket store).1).jsonFieldNames
    ∧ (pushedEntry sym ws th (loadBasket store).1).symbol = sym
    ∧ (pushedEntry sym ws th (loadBasket store).1).window_size = ws
    ∧ (pushedEntry sym ws th (loadBasket store).1).threshold = th := by
  have hbeq : (sym == "") = false := by simp [hs]
  refine ⟨?_, by rfl, by simp +decide [pushedEntry, BasketEntry.jsonFieldNames],
    by simp +decide [pushedEntry, BasketEntry.jsonFieldNames], rfl, rfl, rfl⟩
  unfold addToBasket saveBasket
  simp [hbeq, hdup]

/-- Witness for C5's amended statement at a concrete call. -/
theorem addToBasket_entry_fields_witness :
    addToBasket "TCS.NS" 30 50 (some [entryA])
      = some ((loadBasket (some [entryA])).1 ++
          [pushedEntry "TCS.NS" 30 50 (loadBasket (some [entryA])).1])
    ∧ "weight" ∉ (pushedEntry "TCS.NS" 30 50 (loadBasket (some [entryA])).1).jsonFieldNames :=
  ⟨(addToBasket_entry_fields "TCS.NS" 30 50 (some [entryA]) (by decide) (by decide)).1,
   (addToBasket_entry_fields "TCS.NS" 30 50 (some [entryA]) (by decide) (by decide)).2.2.1⟩

/-- Counterexample for C5 as stated: the entry created by `addToBasket` for
a fresh strategy serializes with only symbol, window_size, threshold and
color — it carries neither a `weight` nor a `visible` field. -/
theorem addToBasket_entry_fields_cex :
    addToBasket "TCS.NS" 30 50 (some []) = some [pushedEntry "TCS.NS" 30 50 []]
    ∧ (pushedEntry "TCS.NS" 30 50 []).jsonFieldNames
        = ["symbol", "window_size", "threshold", "color"]
    ∧ "weight" ∉ (pushedEntry "TCS.NS" 30 50 []).jsonFieldNames
    ∧ "visible" ∉ (pushedEntry "TCS.NS" 30 50 []).jsonFieldNames := by
  refine ⟨by decide, rfl, by decide, by decide⟩

/-- C6 (amended): an error response to the windows request makes `loadData`
report the error and return without rendering, and `state.overlapData`
retains its prior value; however `state.symbol` has already been set to the
normalized input and `state.windowBarData` has already been cleared when
the error is handled. -/
theorem loadData_error_state {W O B : Type} (st : LoadState W O B) (input : String)
    (e : String) (oresp : Option (Except String O))
    (hs : jsTrimUpper input ≠ "") :
    loadData st input (Except.error e) oresp =
      ({ symbol := jsTrimUpper input, windowBarData := none,
         overlapData := st.overlapData }, LoadOutcome.apiError e) := by
  have hbeq : (jsTrimUpper input == "") = false := by simp [hs]
  unfold loadData
  simp [hbeq]

/-- Witness for C6's amended statement at a concrete error response. -/
theorem loadData_error_state_witness :
    loadData (W := Nat) (O := Nat) (B := Nat)
        { symbol := "OLD", windowBarData := some 7, overlapData := some 3 }
        " new " (Except.error "boom") none =
      ({ symbol := jsTrimUpper " new ", windowBarData := none,
         overlapData := some 3 }, LoadOutcome.apiError "boom") :=
  loadData_error_state
    { symbol := "OLD", windowBarData := some 7, overlapData := some 3 }
    " new " "boom" none (by decide)

/-- Counterexample for C6 as stated: on an error response the error is
reported and nothing is rendered, and `state.overlapData` is retained — but
`state.symbol` and `state.windowBarData` do NOT retain their prior values:
the symbol is already overwritten with the new input and the cached bar
data already cleared. -/
theorem loadData_error_state_cex :
    (loadData (W := Nat) (O := Nat) (B := Nat)
        { symbol := "OLD", windowBarData := some 7, overlapData := some 3 }
        " new " (Except.error "boom") none).2 = LoadOutcome.apiError "boom"
    ∧ (loadData (W := Nat) (O := Nat) (B := Nat)
        { symbol := "OLD", windowBarData := some 7, overlapData := some 3 }
        " new " (Except.error "boom") none).1.overlapData = some 3
    ∧ (loadData (W := Nat) (O := Nat) (B := Nat)
        { symbol := "OLD", windowBarData := some 7, overlapData := some 3 }
        " new " (Except.error "boom") none).1.symbol ≠ "OLD"
    ∧ (loadData (W := Nat) (O := Nat) (B := Nat)
        { symbol := "OLD", windowBarData := some 7, overlapData := some 3 }
        " new " (Except.error "boom") none).1.windowBarData ≠ some 7 := by
  decide

theorem retOrZero_of_null (row : YearRow) (sym : String)
    (h : lookupStockReturn row sym = none ∨ lookupStockReturn row sym = some none) :
    retOrZero row sym = 0 := by
  unfold retOrZero
  rcases h with h | h <;> rw [h]

/-- C4 (amended): the per-strategy average shown by
`renderBasketStrategies` omits null/absent years from both the sum and the
divisor (appending such a year changes nothing), while the per-symbol
average inside `computeReturnWeights` substitutes 0 for a null/absent year
and still counts it in the divisor. -/
theorem null_year_handling (data : BarResp) (sym : String) (row : YearRow)
    (h : lookupStockReturn row sym = none ∨ lookupStockReturn row sym = some none) :
    renderStrategyAvg { data with years := data.years ++ [row] } sym
      = renderStrategyAvg data sym
    ∧ crwAvgReturn { data with years := data.years ++ [row] } sym
      = (data.years.map (fun d => retOrZero d sym)).sum / ((data.years.length : ℚ) + 1) := by
  have hz := retOrZero_of_null row sym h
  have hfm : renderStrategyReturns { data with years := data.years ++ [row] } sym
      = renderStrategyReturns data sym := by
    unfold renderStrategyReturns
    simp only [List.filterMap_append]
    have hrow : (List.filterMap
        (fun d =>
          match lookupStockReturn d sym with
          | some (some v) => some v
          | _ => none) [row]) = [] := by
      rcases h with h | h <;> simp [List.filterMap_cons, h]
    rw [hrow, List.append_nil]
  constructor
  · unfold renderStrategyAvg
    rw [hfm]
  · unfold crwAvgReturn
    simp only [List.map_append, List.sum_append, List.length_append]
    simp [hz]

/-- Witness for C4's amended statement: appending a null year for A to a
one-year response leaves the rendered average alone and dilutes the
`computeReturnWeights` average. -/
theorem null_year_handling_witness :
    renderStrategyAvg { barRespTen with years := barRespTen.years ++ [barRowNull] } "A"
      = renderStrategyAvg barRespTen "A"
    ∧ crwAvgReturn { barRespTen with years := barRespTen.years ++ [barRowNull] } "A"
      = ((barRespTen.years.map (fun d => retOrZero d "A")).sum /
          ((barRespTen.years.length : ℚ) + 1)) :=
  null_year_handling barRespTen "A" barRowNull (Or.inr (by decide))

/-- Counterexample for C4 as stated: on a response where A has a 10% year
and a null year, `computeReturnWeights`'s average is (10 + 0)/2 = 5, not
the null-excluding 10 that `renderBasketStrategies` computes. -/
theorem crw_counts_null_years_cex :
    crwAvgReturn barRespNull "A" = 5
    ∧ renderStrategyAvg barRespNull "A" = some 10
    ∧ (5 : ℚ) ≠ 10 := by
  refine ⟨?_, ?_, by norm_num⟩
  · simp +decide [crwAvgReturn, retOrZero, lookupStockReturn, barRespNull, barRowTen,
      barRowNull, List.find?]
    norm_num
  · simp +decide [renderStrategyAvg, renderStrategyReturns, lookupStockReturn, barRespNull,
      barRowTen, barRowNull, List.find?, List.filterMap]

theorem jsDedupStep_ne_nil (acc : List String) (s : String) (h : acc ≠ []) :
    jsDedupStep acc s ≠ [] := by
  unfold jsDedupStep
  split
  · exact h
  · simp

theorem jsDedup_foldl_ne_nil (l : List String) (acc : List String) (h : acc ≠ []) :
    l.foldl jsDedupStep acc ≠ [] := by
  induction l generalizing acc with
  | nil => exact h
  | cons s t ih =>
    rw [List.foldl_cons]
    exact ih _ (jsDedupStep_ne_nil acc s h)

theorem jsDedup_ne_nil (l : List String) (h : l ≠ []) : jsDedup l ≠ [] := by
  match l with
  | [] => exact absurd rfl h
  | s :: t =>
    unfold jsDedup
    rw [List.foldl_cons]
    exact jsDedup_foldl_ne_nil t _ (by simp [jsDedupStep])

theorem crwRawWeight_pos (data : BarResp) (sym : String) :
    0 < crwRawWeight data sym := by
  unfold crwRawWeight
  split
  · assumption
  · norm_num [MIN_WEIGHT]

theorem crwTotalWeight_pos (data : BarResp) (h : jsDedup data.symbols ≠ []) :
    0 < crwTotalWeight data := by
  unfold crwTotalWeight
  apply List.sum_pos
  · intro x hx
    obtain ⟨s, _, rfl⟩ := List.mem_map.mp hx
    exact crwRawWeight_pos data s
  · simpa using h

theorem map_pair_snd (l : List String) (f : String → ℚ) :
    ((l.map (fun s => (s, f s))).map Prod.snd) = l.map f := by
  simp [List.map_map, Function.comp]

theorem sum_map_div (l : List String) (f : String → ℚ) (c : ℚ) :
    (l.map (fun s => f s / c)).sum = (l.map f).sum / c := by
  simp only [div_eq_mul_inv]
  rw [List.sum_map_mul_right]

theorem mapLookup_map_pair (l : List String) (f : String → ℚ) (sym : String)
    (h : sym ∈ l) :
    mapLookup (l.map (fun s => (s, f s))) sym = some (f sym) := by
  induction l with
  | nil => cases h
  | cons a t ih =>
    by_cases ha : a = sym
    · subst ha
      unfold mapLookup
      rw [List.map_cons, List.find?_cons_of_pos _ (by simp)]
      rfl
    · unfold mapLookup
      rw [List.map_cons, List.find?_cons_of_neg _ (by simp [ha])]
      rcases List.mem_cons.mp h with rfl | hm
      · exact absurd rfl ha
      · exact ih hm

theorem computeReturnWeights_eq (basket : List BasketEntry) (data : BarResp)
    (hb : basket ≠ []) (he : data.error = none) (hy : data.years ≠ [])
    (htot : 0 < crwTotalWeight data) :
    computeReturnWeights basket data =
      some ((jsDedup data.symbols).map
        (fun s => (s, crwRawWeight data s / crwTotalWeight data))) := by
  unfold computeReturnWeights
  rw [if_neg (by simp [hb]), if_neg (by simp [he, hy])]
  congr 1
  simp only [if_pos htot]

/-- C3 (amended): the 5% floor applies to the raw, pre-normalization
weight.  For every strategy whose average per-year return is non-positive,
`computeReturnWeights` sets its raw weight to exactly `MIN_WEIGHT = 0.05`
and its final normalized weight to `0.05 / totalWeight`; the final weight
is at least 0.05 only when the raw weights sum to at most 1. -/
theorem return_weight_floor (basket : List BasketEntry) (data : BarResp)
    (sym : String) (hb : basket ≠ []) (he : data.error = none)
    (hy : data.years ≠ []) (hmem : sym ∈ jsDedup data.symbols)
    (hneg : crwAvgReturn data sym ≤ 0) :
    crwRawWeight data sym = MIN_WEIGHT
    ∧ 0 < crwTotalWeight data
    ∧ (∃ m, computeReturnWeights basket data = some m
        ∧ mapLookup m sym = some (MIN_WEIGHT / crwTotalWeight data))
    ∧ (crwTotalWeight data ≤ 1 → MIN_WEIGHT ≤ MIN_WEIGHT / crwTotalWeight data) := by
  have hraw : crwRawWeight data sym = MIN_WEIGHT := by
    unfold crwRawWeight
    rw [if_neg (not_lt.mpr hneg)]
  have htot : 0 < crwTotalWeight data :=
    crwTotalWeight_pos data (List.ne_nil_of_mem hmem)
  refine ⟨hraw, htot, ⟨_, computeReturnWeights_eq basket data hb he hy htot, ?_⟩, ?_⟩
  · rw [mapLookup_map_pair _ _ sym hmem, hraw]
  · intro hle
    rw [le_div_iff₀ htot]
    calc MIN_WEIGHT * crwTotalWeight data ≤ MIN_WEIGHT * 1 := by
          apply mul_le_mul_of_nonneg_left hle
          norm_num [MIN_WEIGHT]
      _ = MIN_WEIGHT := mul_one _

/-- Witness for C3's amended statement: on `barRespSmall` symbol B's
average is −1, its raw weight is the 0.05 floor, the raw weights total
0.55 ≤ 1, and its final weight 0.05/0.55 is above the floor. -/
theorem return_weight_floor_witness :
    crwRawWeight barRespSmall "B" = MIN_WEIGHT
    ∧ 0 < crwTotalWeight barRespSmall
    ∧ (∃ m, computeReturnWeights [entryA] barRespSmall = some m
        ∧ mapLookup m "B" = some (MIN_WEIGHT / crwTotalWeight barRespSmall))
    ∧ (crwTotalWeight barRespSmall ≤ 1 →
        MIN_WEIGHT ≤ MIN_WEIGHT / crwTotalWeight barRespSmall) :=
  return_weight_floor [entryA] barRespSmall "B" (by decide) rfl (by decide)
    (by decide)
    (by
      simp +decide [crwAvgReturn, retOrZero, lookupStockReturn, barRespSmall, List.find?])

/-- Counterexample for C3 as stated: on `barRespNeg` symbol B has
non-positive average return (−1) and A has positive average return (1.95),
yet B's final normalized weight is 0.05/2 = 0.025 < 0.05. -/
theorem return_weight_floor_cex :
    crwAvgReturn barRespNeg "B" ≤ 0
    ∧ 0 < crwAvgReturn barRespNeg "A"
    ∧ computeReturnWeights [entryA] barRespNeg
        = some [("A", 39 / 40), ("B", 1 / 40)]
    ∧ ¬ (MIN_WEIGHT ≤ (1 / 40 : ℚ)) := by
  refine ⟨?_, ?_, ?_, by norm_num [MIN_WEIGHT]⟩
  · simp +decide [crwAvgReturn, retOrZero, lookupStockReturn, barRespNeg, List.find?]
  · simp +decide [crwAvgReturn, retOrZero, lookupStockReturn, barRespNeg, List.find?]
  · simp +decide [computeReturnWeights, crwTotalWeight, crwRawWeight, crwAvgReturn,
      retOrZero, lookupStockReturn, jsDedup, jsDedupStep, MIN_WEIGHT, barRespNeg,
      List.foldl, List.find?]
    norm_num

/-- C2: for every non-empty visible basket, whenever a weight producer
returns a non-null map — `computeReturnWeights` on an error-free bar
response with at least one symbol and at least one year, or
`computeMarketCapWeights` whenever it returns non-null (its gate demands a
non-zero raw-weight total) — the map's values sum to 1 within 1e-6 (here:
exactly 1 in exact rational arithmetic). -/
theorem weight_maps_sum_to_one :
    (∀ (basket : List BasketEntry) (data : BarResp),
        basket ≠ [] → data.error = none → data.symbols ≠ [] → data.years ≠ [] →
        ∃ m, computeReturnWeights basket data = some m
          ∧ |(m.map Prod.snd).sum - 1| ≤ 1 / 1000000)
    ∧ (∀ (msqrt : ℚ → ℚ) (basket : List BasketEntry) (caps : CapResp)
          (m : List (String × ℚ)),
        computeMarketCapWeights msqrt basket caps = some m →
        |(m.map Prod.snd).sum - 1| ≤ 1 / 1000000) := by
  constructor
  · intro basket data hb he hsym hy
    have htot : 0 < crwTotalWeight data :=
      crwTotalWeight_pos data (jsDedup_ne_nil _ hsym)
    refine ⟨_, computeReturnWeights_eq basket data hb he hy htot, ?_⟩
    rw [map_pair_snd, sum_map_div]
    have : ((jsDedup data.symbols).map (crwRawWeight data)).sum = crwTotalWeight data := rfl
    rw [this, div_self (ne_of_gt htot)]
    norm_num
  · intro msqrt basket caps m hm
    unfold computeMarketCapWeights at hm
    by_cases h1 : basket.isEmpty = true
    · rw [if_pos h1] at hm
      exact Option.noConfusion hm
    · rw [if_neg h1] at hm
      by_cases h2 : caps.error = true
      · rw [if_pos h2] at hm
        exact Option.noConfusion hm
      · rw [if_neg h2] at hm
        by_cases h3 : (mcwTotalWeight msqrt basket caps.caps == 0) = true
        · rw [if_pos h3] at hm
          exact Option.noConfusion hm
        · rw [if_neg h3] at hm
          have htot : mcwTotalWeight msqrt basket caps.caps ≠ 0 := by
            simpa using h3
          have hmeq := (Option.some.inj hm).symm
          rw [hmeq, map_pair_snd, sum_map_div]
          have : ((mcwKeys basket).map (mcwRawWeight msqrt caps.caps)).sum
              = mcwTotalWeight msqrt basket caps.caps := rfl
          rw [this, div_self htot]
          norm_num

/-- Witness for C2: the return-weighted producer on `barRespNeg` and the
market-cap producer on `capsAAA`, both at a one-entry basket. -/
theorem weight_maps_sum_to_one_witness :
    (∃ m, computeReturnWeights [entryA] barRespNeg = some m
        ∧ |(m.map Prod.snd).sum - 1| ≤ 1 / 1000000)
    ∧ |(([(("AAA" : String), (1 : ℚ))].map Prod.snd).sum - 1)| ≤ 1 / 1000000 :=
  ⟨weight_maps_sum_to_one.1 [entryA] barRespNeg (by decide) rfl (by decide) (by decide),
   weight_maps_sum_to_one.2 id [entryA] capsAAA [("AAA", 1)]
     (by
       simp +decide [computeMarketCapWeights, mcwKeys, mcwTotalWeight, mcwRawWeight,
         capOf, jsDedup, jsDedupStep, stripNS, entryA, capsAAA, List.foldl, List.find?])⟩

theorem getVisibleBasket_mem_iff (store : Option (List BasketEntry))
    (hidden : Finset ℕ) (e : BasketEntry) :
    e ∈ getVisibleBasket store hidden ↔
      ∃ i : ℕ, i ∉ hidden ∧ ((loadBasket store).1)[i]? = some e := by
  unfold getVisibleBasket
  constructor
  · intro h
    obtain ⟨p, hp, rfl⟩ := List.mem_map.mp h
    obtain ⟨hpe, hph⟩ := List.mem_filter.mp hp
    refine ⟨p.1, by simpa using hph, ?_⟩
    rw [← List.mk_mem_enum_iff_getElem?]
    simpa using hpe
  · rintro ⟨i, hi, hgi⟩
    apply List.mem_map.mpr
    exact ⟨(i, e),
      List.mem_filter.mpr ⟨List.mk_mem_enum_iff_getElem?.mpr hgi, by simpa using hi⟩,
      rfl⟩

/-- C1 (amended): hidden strategies are excluded from weighting and from
the combined-basket backtest, whose strategy list is exactly the
`getVisibleBasket` filter of the stored basket (the weight producers start
from the same `getVisibleBasket` call), and the stored list keeps every
strategy; the overlap request issued by `loadData`, however, carries the
FULL stored basket, hidden strategies included. -/
theorem basket_visibility_routing (store : Option (List BasketEntry))
    (hidden : Finset ℕ) (hvis : getVisibleBasket store hidden ≠ []) :
    loadBasketBacktestStrategies store hidden = some (getVisibleBasket store hidden)
    ∧ (∀ e : BasketEntry, e ∈ getVisibleBasket store hidden ↔
        ∃ i : ℕ, i ∉ hidden ∧ ((loadBasket store).1)[i]? = some e)
    ∧ ((loadBasket store).2.getD []).map tripleOf = (store.getD []).map tripleOf := by
  refine ⟨?_, fun e => getVisibleBasket_mem_iff store hidden e,
    loadBasket_snd_map_tripleOf store⟩
  unfold loadBasketBacktestStrategies
  rw [if_neg (by simpa [List.isEmpty_iff] using hvis)]

/-- Witness for C1's amended statement at a two-entry basket with the first
strategy hidden. -/
theorem basket_visibility_routing_witness :
    loadBasketBacktestStrategies (some [entryA, entryB]) {0}
      = some (getVisibleBasket (some [entryA, entryB]) {0})
    ∧ (∀ e : BasketEntry, e ∈ getVisibleBasket (some [entryA, entryB]) {0} ↔
        ∃ i : ℕ, i ∉ ({0} : Finset ℕ) ∧
          ((loadBasket (some [entryA, entryB])).1)[i]? = some e)
    ∧ ((loadBasket (some [entryA, entryB])).2.getD []).map tripleOf
        = ((some [entryA, entryB] : Option (List BasketEntry)).getD []).map tripleOf :=
  basket_visibility_routing (some [entryA, entryB]) {0} (by decide)

/-- Counterexample for C1 as stated: with a two-entry stored basket and
strategy 0 hidden, the overlap request payload built by `loadData` is the
full stored list and still contains the hidden `entryA`, while the visible
basket does not. -/
theorem overlap_gets_full_basket_cex :
    loadDataOverlapStrategies (some [entryA, entryB]) = some [entryA, entryB]
    ∧ getVisibleBasket (some [entryA, entryB]) {0} = [entryB]
    ∧ entryA ∈ [entryA, entryB]
    ∧ entryA ∉ getVisibleBasket (some [entryA, entryB]) {0} := by
  decide

end Meguru
